import Mathlib

/-!
# Verification of the webdriver retry wrapper (`src/driver.ts`)

Shallow embedding of the retry/polling engine, the locator-chain model and
the element/collection handles of `driver.ts`.  Asynchronous effects are
modelled by explicit environments: each retry attempt's interaction with the
remote driver is a value describing what the driver did on that attempt
(success, a raised error, or a falsy precondition), and wall-clock checks of
`timeoutCondition` are a list of booleans, one per loop iteration (an
exhausted list means the budget check returns `false`, matching the monotone
passage of time).  Thrown JavaScript values are returned explicitly:
`LoopResult.fatal` is the immediate re-throw of an `InvalidSelectorError`,
`LoopResult.timedOut cur` is the final `throw currentException`, where
`cur = none` models the value `undefined` (no failure was ever recorded).
-/

/-- Error classes of interest, mirroring the `selenium-webdriver` error
classes the code dispatches on (`instanceof` checks). -/
inductive ErrName where
  | invalidSelector
  | noSuchElement
  | staleElementReference
  | other
deriving DecidableEq, Repr

/-- A JavaScript error value as the code observes and mutates it:
`message`, the ad-hoc `getElementError` marker field set by
`Element.getElement` / `Element.findElements`, and `stack`. -/
structure Err where
  name : ErrName
  message : String
  getElementError : Bool
  stack : String
deriving DecidableEq, Repr

deriving instance DecidableEq for Except

/-- Locator strategies used by the code (`By.css`, `By.xpath`). -/
inductive Strategy where
  | css
  | xpath
deriving DecidableEq, Repr

/-- A selenium locator: a strategy plus a selector value. -/
structure Locator where
  strategy : Strategy
  value : String
deriving DecidableEq, Repr

namespace By

def css (cssSelector : String) : Locator := { strategy := .css, value := cssSelector }

def xpath (xpathExpr : String) : Locator := { strategy := .xpath, value := xpathExpr }

end By

/-- Rendering of a locator in a template string (selenium's `By#toString`). -/
def Locator.toStr (l : Locator) : String :=
  match l.strategy with
  | .css => "By(css selector, " ++ l.value ++ ")"
  | .xpath => "By(xpath, " ++ l.value ++ ")"

/-- Rendering of a locator array in a template string: elements joined by a
comma, as JavaScript array-to-string conversion does. -/
def locatorsStr (ls : List Locator) : String :=
  String.intercalate "," (ls.map Locator.toStr)

/-- The text appended to an error message when a locator chain is attached:
`"\nLocators chain: " + chain`. -/
def chainSuffix (ls : List Locator) : String :=
  "\nLocators chain: " ++ locatorsStr ls

/-- `timeoutCondition(timeoutMs)` captures `dt = +new Date()` and returns the
predicate `() => (+new Date()) - dt <= timeoutMs`; here `dt` is the captured
creation time and the argument is the current time of one check. -/
def timeoutCondition (timeoutMs : Int) (dt : Int) : Int → Bool :=
  fun now => now - dt ≤ timeoutMs

/-- An `Element` handle: the locator chain and the `ownLocator` field as the
constructor sets them (`null` becomes `none`).  The driver-facade reference is
not part of the state the claims concern. -/
structure Element where
  chainedLocators : List Locator
  ownLocator : Option Locator
deriving DecidableEq, Repr

/-- The `Element` constructor: a single locator pushes one entry, an array
spreads all entries, and `ownLocator` is the last chain entry
(`chainedLocators[length - 1]`, `undefined` on an empty array). -/
def Element.construct : Locator ⊕ List Locator → Element
  | .inl l => { chainedLocators := [l], ownLocator := some l }
  | .inr ls => { chainedLocators := ls, ownLocator := ls.getLast? }

/-- `get currentLocator`: returns `ownLocator`, throwing a `TypeError` when it
is `null`. -/
def Element.currentLocator (el : Element) : Except String Locator :=
  match el.ownLocator with
  | some l => .ok l
  | none => .error "Locator is null"

/-- `Element.$(cssSelector)`: a new element over the copied chain plus a CSS
locator. -/
def Element.childCss (el : Element) (cssSelector : String) : Element :=
  Element.construct (.inr (el.chainedLocators ++ [By.css cssSelector]))

/-- `Element.xpath(xpath)`: a new element over the copied chain plus an XPath
locator. -/
def Element.xpathChild (el : Element) (xpathExpr : String) : Element :=
  Element.construct (.inr (el.chainedLocators ++ [By.xpath xpathExpr]))

/-- `Element.element(locator | element)`: appends a raw locator, or another
handle's `currentLocator` (which throws when that handle's own locator is
`null`). -/
def Element.childElement (el : Element) (locator : Locator ⊕ Element) :
    Except String Element :=
  match locator with
  | .inl l => .ok (Element.construct (.inr (el.chainedLocators ++ [l])))
  | .inr other =>
    match other.currentLocator with
    | .ok l => .ok (Element.construct (.inr (el.chainedLocators ++ [l])))
    | .error m => .error m

/-- Top level `$(cssSelector)` factory. -/
def dollar (cssSelector : String) : Element := Element.construct (.inl (By.css cssSelector))

/-- Top level `xpath(xpath)` factory. -/
def xpathFactory (xpathExpr : String) : Element :=
  Element.construct (.inl (By.xpath xpathExpr))

/-- Top level `element(locator)` factory. -/
def elementFactory (locator : Locator) : Element := Element.construct (.inl locator)

/-- `ElementAll`: document-scoped collection handle holding one locator. -/
structure ElementAll where
  ownLocator : Locator
deriving DecidableEq, Repr

/-- Top level `$$(cssSelector)` factory. -/
def dollarAll (cssSelector : String) : ElementAll := { ownLocator := By.css cssSelector }

/-- Top level `xx(xpath)` factory, exactly as the source builds it:
`new ElementAll(By.css(xpath))`. -/
def xx (xpathExpr : String) : ElementAll := { ownLocator := By.css xpathExpr }

/-! ## Chain resolution (`Element.getElement`) -/

/-- One attempt's driver behaviour during chain resolution: for each step
index, `none` means `findElement` succeeded, `some e` means it raised the raw
error `e`. -/
def StepEnv : Type := Nat → Option Err

/-- The annotation `getElement` performs in its `catch`: append the sliced
chain (`getSlicedLocators(index)`, i.e. the first `index + 1` locators) to the
message and set the `getElementError` marker. -/
def annotateResolution (chain : List Locator) (index : Nat) (e : Err) : Err :=
  { e with
      message := e.message ++ chainSuffix (chain.take (index + 1)),
      getElementError := true }

/-- Loop body of `Element.getElement`: walk the chain entries with their
index; a failing `findElement` throws the annotated error. -/
def getElementGo (chain : List Locator) (steps : StepEnv) :
    Nat → List Locator → Except Err Unit
  | _, [] => .ok ()
  | i, _ :: rest =>
    match steps i with
    | none => getElementGo chain steps (i + 1) rest
    | some e => .error (annotateResolution chain i e)

/-- `Element.getElement()`: resolve the chain step by step from the driver
root; `steps` describes what the driver did at each step of this attempt. -/
def Element.getElement (el : Element) (steps : StepEnv) : Except Err Unit :=
  getElementGo el.chainedLocators steps 0 el.chainedLocators

/-! ## The generic retry-until-success loop -/

/-- Result of one attempt of a retried operation body:
`ok` (the `try` body returned), `noResult` (the body fell through a falsy
precondition such as `isEnabled()` returning `false`, raising nothing), or
`err` (the body threw). -/
inductive AttemptResult (α : Type) where
  | ok (a : α)
  | noResult
  | err (e : Err)
deriving DecidableEq, Repr

/-- Observable outcome of a retry loop, with the number of attempts that were
started: `success` (the body returned), `fatal` (an `InvalidSelectorError`
re-thrown immediately), `timedOut cur` (the final `throw currentException`;
`cur = none` is the JavaScript value `undefined`). -/
inductive LoopResult (α : Type) where
  | success (a : α) (attempts : Nat)
  | fatal (e : Err) (attempts : Nat)
  | timedOut (cur : Option Err) (attempts : Nat)
deriving DecidableEq, Repr

/-- What the `catch` block of a retry wrapper records as `currentException`:
when `annotate` is set (the wrappers containing
`if (!e.getElementError) e.message += ...`) an unmarked error first gets the
full chain appended; then `e.stack = preservedStack`. -/
def recordErr (annotate : Bool) (chain : List Locator) (stk : String) (e : Err) : Err :=
  let e1 :=
    if annotate ∧ e.getElementError = false then
      { e with message := e.message ++ chainSuffix chain }
    else e
  { e1 with stack := stk }

/-- The shared retry-until-success loop shape
(`while (retryTimeoutCondition()) { try ... catch ... } throw currentException`).
`budget` lists the successive results of `retryTimeoutCondition()`; `n` counts
attempts started so far and `cur` is `currentException` (initially
`undefined`). -/
def retryLoop (annotate : Bool) (chain : List Locator) (stk : String)
    (attempt : Nat → AttemptResult α) :
    List Bool → Nat → Option Err → LoopResult α
  | [], n, cur => .timedOut cur n
  | b :: rest, n, cur =>
    if b then
      match attempt n with
      | .ok a => .success a (n + 1)
      | .noResult => retryLoop annotate chain stk attempt rest (n + 1) cur
      | .err e =>
        if e.name = ErrName.invalidSelector then .fatal e (n + 1)
        else retryLoop annotate chain stk attempt rest (n + 1)
          (some (recordErr annotate chain stk e))
    else .timedOut cur n

/-- Entry point of a retry wrapper: start with zero attempts and
`currentException` undefined. -/
def runRetry (annotate : Bool) (chain : List Locator) (stk : String)
    (attempt : Nat → AttemptResult α) (budget : List Bool) : LoopResult α :=
  retryLoop annotate chain stk attempt budget 0 none

/-! ## The retried element operations -/

/-- `Element.retryGetElement`: retry `getElement()`; the wrapper does not
annotate (resolution errors already carry the chain), only rewrites stacks. -/
def Element.retryGetElement (el : Element) (stk : String)
    (steps : Nat → StepEnv) (budget : List Bool) : LoopResult Unit :=
  runRetry false el.chainedLocators stk
    (fun n =>
      match el.getElement (steps n) with
      | .ok _ => .ok ()
      | .error e => .err e)
    budget

/-- Driver behaviour of one `click()` attempt after the chain resolved:
`isEnabled()` threw, returned `false`, `click()` threw, or the click landed. -/
inductive ClickAction where
  | isEnabledThrows (e : Err)
  | notEnabled
  | clickThrows (e : Err)
  | clicked
deriving DecidableEq, Repr

/-- The `try` body of one `click()` attempt: resolve, check `isEnabled`,
click; a falsy `isEnabled` falls through without raising. -/
def clickAttempt (el : Element) (steps : StepEnv) (act : ClickAction) :
    AttemptResult Unit :=
  match el.getElement steps with
  | .error e => .err e
  | .ok _ =>
    match act with
    | .isEnabledThrows e => .err e
    | .notEnabled => .noResult
    | .clickThrows e => .err e
    | .clicked => .ok ()

/-- `Element.click(retryTimeout?)`: the retrying click; this wrapper annotates
unmarked errors with the chain. -/
def Element.click (el : Element) (stk : String)
    (env : Nat → StepEnv × ClickAction) (budget : List Bool) : LoopResult Unit :=
  runRetry true el.chainedLocators stk
    (fun n => clickAttempt el (env n).1 (env n).2) budget

/-- `Element.retryFindElements(locator)`: retry
`(await this.getElement()).findElements(locator)`.  The second component of
`env n` is the action step: `none` when the `WebElement#findElements` call
succeeded, `some e` when it threw `e`.  The wrapper does not annotate. -/
def Element.retryFindElements (el : Element) (stk : String)
    (env : Nat → StepEnv × Option Err) (budget : List Bool) : LoopResult Unit :=
  runRetry false el.chainedLocators stk
    (fun n =>
      match el.getElement (env n).1 with
      | .error e => .err e
      | .ok _ =>
        match (env n).2 with
        | none => .ok ()
        | some e => .err e)
    budget

/-- `Element.waitForNotPresent()`: its loop differs from the generic shape; a
resolution failure with `NoSuchElementError` or `StaleElementReferenceError`
returns successfully, `InvalidSelectorError` is re-thrown, anything else is
recorded (stack rewritten, no annotation in this wrapper) and retried. -/
def waitForNotPresentLoop (el : Element) (stk : String) (steps : Nat → StepEnv) :
    List Bool → Nat → Option Err → LoopResult Unit
  | [], n, cur => .timedOut cur n
  | b :: rest, n, cur =>
    if b then
      match el.getElement (steps n) with
      | .ok _ => waitForNotPresentLoop el stk steps rest (n + 1) cur
      | .error e =>
        if e.name = ErrName.invalidSelector then .fatal e (n + 1)
        else if e.name = ErrName.noSuchElement ∨ e.name = ErrName.staleElementReference then
          .success () (n + 1)
        else waitForNotPresentLoop el stk steps rest (n + 1) (some { e with stack := stk })
    else .timedOut cur n

/-- Entry point of `Element.waitForNotPresent()`. -/
def Element.waitForNotPresent (el : Element) (stk : String)
    (steps : Nat → StepEnv) (budget : List Bool) : LoopResult Unit :=
  waitForNotPresentLoop el stk steps budget 0 none

/-! ## `retryExpect` (retry-until-equal) -/

/-- JavaScript truthiness of the `message` option (`null` and the empty
string are falsy). -/
def jsTruthy : Option String → Bool
  | none => false
  | some m => m ≠ ""

/-- Observable outcome of `retryExpect`, with the number of calls made to the
wrapped operation: success, the final `AssertionError` with its composed
message, or the `TypeError` raised by reading `exception.message` when no
mismatch was ever recorded (`exception` is `undefined`). -/
inductive ExpectResult where
  | success (attempts : Nat)
  | assertionError (message : String) (attempts : Nat)
  | typeError (attempts : Nat)
deriving DecidableEq, Repr

/-- The `throw new assert.AssertionError(...)` after the loop: the message is
`message ? (concatenateMessages ? [message, exception.message].join('\n')
: message) : exception.message`; every branch reading `exception.message`
while `exception` is `undefined` raises a `TypeError` instead. -/
def expectThrow (message : Option String) (concatenateMessages : Bool)
    (exc : Option String) (n : Nat) : ExpectResult :=
  if jsTruthy message then
    if concatenateMessages then
      match exc with
      | none => .typeError n
      | some m => .assertionError ((message.getD "") ++ "\n" ++ m) n
    else .assertionError (message.getD "") n
  else
    match exc with
    | none => .typeError n
    | some m => .assertionError m n

/-- `retryExpect(foo, expected, opts)`: call `foo` each iteration, succeed on
the first deep-strict-equal result, else record the mismatch's
`AssertionError` message (`diffMsg actual`, the message
`assert.deepStrictEqual` produces for that actual value) and loop.
Deep structural equality of the modelled values is Lean equality. -/
def retryExpect [DecidableEq T] (foo : Nat → T) (expected : T)
    (message : Option String) (concatenateMessages : Bool)
    (diffMsg : T → String) :
    List Bool → Nat → Option String → ExpectResult
  | [], n, exc => expectThrow message concatenateMessages exc n
  | b :: rest, n, exc =>
    if b then
      if foo n = expected then .success (n + 1)
      else retryExpect foo expected message concatenateMessages diffMsg rest (n + 1)
        (some (diffMsg (foo n)))
    else expectThrow message concatenateMessages exc n

/-- Entry point of `retryExpect`. -/
def runRetryExpect [DecidableEq T] (foo : Nat → T) (expected : T)
    (message : Option String) (concatenateMessages : Bool)
    (diffMsg : T → String) (budget : List Bool) : ExpectResult :=
  retryExpect foo expected message concatenateMessages diffMsg budget 0 none

/-! ## Collection handles and sorted texts -/

/-- JavaScript `Array.prototype.sort()` on an array of strings: sorts
lexicographically (compared here through the strings' character lists, the
executable form of the lexicographic string order). -/
def jsSort (l : List String) : List String :=
  List.insertionSort (fun a b => a.data ≤ b.data) l

instance : IsTotal String (fun a b => a.data ≤ b.data) :=
  ⟨fun a b => le_total a.data b.data⟩

instance : IsTrans String (fun a b => a.data ≤ b.data) :=
  ⟨fun _ _ _ h1 h2 => le_trans h1 h2⟩

instance : IsAntisymm String (fun a b => a.data ≤ b.data) :=
  ⟨fun _ _ h1 h2 => String.toList_inj.mp (le_antisymm h1 h2)⟩

/-- `ChainedElementAll.getSortedElementsTexts()`: read each matched element's
text in discovery order, then `sort()` the list.  `texts` is the list of
texts in the order the driver discovered the elements. -/
def ChainedElementAll.getSortedElementsTexts (texts : List String) : List String :=
  jsSort texts

/-- `ElementAll.getSortedElementsTexts()`: same body over the document-scoped
handle. -/
def ElementAll.getSortedElementsTexts (texts : List String) : List String :=
  jsSort texts

/-- `ChainedElementAll.expectSortedListToEqual(list)`: compare the retried
sorted texts against `list.sort()` via `retryExpect` with
`concatenateMessages` set.  `list.sort()` sorts the caller's array in place,
so the call's observable effect is the pair (retryExpect outcome, final state
of the caller's `list` array). -/
def ChainedElementAll.expectSortedListToEqual (actualTexts : List String)
    (list : List String) (failMessage : Option String)
    (diffMsg : List String → String) (budget : List Bool) :
    ExpectResult × List String :=
  (runRetryExpect (fun _ => ChainedElementAll.getSortedElementsTexts actualTexts)
      (jsSort list) failMessage true diffMsg budget,
    jsSort list)

/-- `ElementAll.expectSortedListToBe(list)`: identical shape on the
document-scoped collection handle. -/
def ElementAll.expectSortedListToBe (actualTexts : List String)
    (list : List String) (failMessage : Option String)
    (diffMsg : List String → String) (budget : List Bool) :
    ExpectResult × List String :=
  (runRetryExpect (fun _ => ElementAll.getSortedElementsTexts actualTexts)
      (jsSort list) failMessage true diffMsg budget,
    jsSort list)

/-! ## Concrete fixtures used to evaluate the definitions -/

/-- A raw not-found error as the driver raises it. -/
def errNoSuch : Err :=
  { name := .noSuchElement, message := "no such element", getElementError := false, stack := "s0" }

/-- A raw stale-reference error as the driver raises it. -/
def errStale : Err :=
  { name := .staleElementReference, message := "stale element reference",
    getElementError := false, stack := "s0" }

/-- A raw error of an unclassified class. -/
def errOther : Err :=
  { name := .other, message := "boom", getElementError := false, stack := "s0" }

/-- A raw invalid-selector error. -/
def errInvalid : Err :=
  { name := .invalidSelector, message := "invalid selector", getElementError := false, stack := "s0" }

/-- A one-locator element handle rooted at `$("a")`. -/
def elA : Element := Element.construct (.inl (By.css "a"))

/-- Attempt environment whose every attempt throws `errNoSuch`. -/
def attemptsNoSuch : Nat → AttemptResult Unit := fun _ => .err errNoSuch

/-- The per-attempt errors of `attemptsNoSuch`. -/
def errsNoSuch : Nat → Err := fun _ => errNoSuch

/-- Attempt environment whose every attempt throws `errInvalid`. -/
def attemptsInvalid : Nat → AttemptResult Unit := fun _ => .err errInvalid

/-- Resolution environment for one attempt: the first step fails with
`errOther`. -/
def stepEnvFailOther : StepEnv := fun _ => some errOther

/-- Resolution environment for one attempt: every step succeeds. -/
def stepEnvOk : StepEnv := fun _ => none

/-- Per-attempt resolution environments: every attempt's first step fails
with `errInvalid`. -/
def stepsAllFailInvalid : Nat → StepEnv := fun _ _ => some errInvalid

/-- Per-attempt resolution environments: every attempt's first step fails
with `errOther`. -/
def stepsAllFailOther : Nat → StepEnv := fun _ _ => some errOther

/-- Per-attempt resolution environments: attempt 0 fails with `errOther`,
later attempts fail with `errNoSuch`. -/
def stepsOtherThenNoSuch : Nat → StepEnv :=
  fun n _ => if n = 0 then some errOther else some errNoSuch

/-- The annotated errors `elA.getElement` raises under
`stepsOtherThenNoSuch`. -/
def errsOtherThenNoSuch : Nat → Err :=
  fun n =>
    if n = 0 then annotateResolution elA.chainedLocators 0 errOther
    else annotateResolution elA.chainedLocators 0 errNoSuch

/-- The annotated errors `elA.getElement` raises under `stepsAllFailOther`. -/
def errsAnnOther : Nat → Err := fun _ => annotateResolution elA.chainedLocators 0 errOther

/-- Click environment: resolution fails with `errOther` every attempt. -/
def cenvResolveFail : Nat → StepEnv × ClickAction :=
  fun _ => (stepEnvFailOther, .clicked)

/-- Click environment: resolution fails with `errInvalid` every attempt. -/
def cenvResolveInvalid : Nat → StepEnv × ClickAction :=
  fun _ => (stepsAllFailInvalid 0, .clicked)

/-- Click environment: the element resolves and `click()` throws `errOther`. -/
def cenvClickThrows : Nat → StepEnv × ClickAction :=
  fun _ => (stepEnvOk, .clickThrows errOther)

/-- Click environment: the element resolves and `isEnabled()` is always
`false`. -/
def cenvNotEnabled : Nat → StepEnv × ClickAction :=
  fun _ => (stepEnvOk, .notEnabled)

/-- `retryFindElements` environment: resolution fails with `errOther`. -/
def fenvResolveFail : Nat → StepEnv × Option Err :=
  fun _ => (stepEnvFailOther, none)

/-- `retryFindElements` environment: resolution succeeds and the
`WebElement#findElements` action throws `errStale`. -/
def fenvActionStale : Nat → StepEnv × Option Err :=
  fun _ => (stepEnvOk, some errStale)

/-- `retryFindElements` environment: resolution succeeds and the action
throws `errOther`. -/
def fenvActionOther : Nat → StepEnv × Option Err :=
  fun _ => (stepEnvOk, some errOther)

/-- `retryFindElements` environment: resolution succeeds and the action
throws `errInvalid`. -/
def fenvActionInvalid : Nat → StepEnv × Option Err :=
  fun _ => (stepEnvOk, some errInvalid)

/-- The identity operation fed to `retryExpect` in witnesses: attempt `n`
produces `n`. -/
def fooId : Nat → Nat := fun n => n

/-! ## Helper lemmas about the loops -/

/-- One unfolding of `retryLoop` at a passing budget check. -/
theorem retryLoop_cons_true (annotate : Bool) (chain : List Locator) (stk : String)
    (attempt : Nat → AttemptResult α) (rest : List Bool) (n : Nat) (cur : Option Err) :
    retryLoop annotate chain stk attempt (true :: rest) n cur =
      match attempt n with
      | .ok a => .success a (n + 1)
      | .noResult => retryLoop annotate chain stk attempt rest (n + 1) cur
      | .err e =>
        if e.name = ErrName.invalidSelector then .fatal e (n + 1)
        else retryLoop annotate chain stk attempt rest (n + 1)
          (some (recordErr annotate chain stk e)) := by
  simp [retryLoop]

/-- If every attempt up to `k` throws a retryable error, `k + 1` leading true
budget checks drive `k + 1` attempts and the loop then throws the recording of
the last attempt's error. -/
theorem retryLoop_all_err (annotate : Bool) (chain : List Locator) (stk : String)
    (attempt : Nat → AttemptResult α) (e : Nat → Err) :
    ∀ (k n : Nat) (cur : Option Err),
      (∀ i, i ≤ k → attempt (n + i) = .err (e (n + i))) →
      (∀ i, i ≤ k → (e (n + i)).name ≠ ErrName.invalidSelector) →
      retryLoop annotate chain stk attempt (List.replicate (k + 1) true) n cur =
        .timedOut (some (recordErr annotate chain stk (e (n + k)))) (n + (k + 1)) := by
  intro k
  induction k with
  | zero =>
    intro n cur hatt hname
    have h0 := hatt 0 (Nat.le_refl 0)
    have h1 := hname 0 (Nat.le_refl 0)
    simp only [Nat.add_zero] at h0 h1
    rw [show List.replicate (0 + 1) true = true :: [] from rfl, retryLoop_cons_true, h0]
    simp [retryLoop, h1]
  | succ k ih =>
    intro n cur hatt hname
    have h0 := hatt 0 (Nat.zero_le _)
    have h1 := hname 0 (Nat.zero_le _)
    simp only [Nat.add_zero] at h0 h1
    rw [show List.replicate (k + 1 + 1) true = true :: List.replicate (k + 1) true from rfl,
      retryLoop_cons_true, h0]
    have hatt2 : ∀ i, i ≤ k → attempt (n + 1 + i) = .err (e (n + 1 + i)) := by
      intro i hi
      have := hatt (i + 1) (by omega)
      have harith : n + (i + 1) = n + 1 + i := by omega
      rwa [harith] at this
    have hname2 : ∀ i, i ≤ k → (e (n + 1 + i)).name ≠ ErrName.invalidSelector := by
      intro i hi
      have := hname (i + 1) (by omega)
      have harith : n + (i + 1) = n + 1 + i := by omega
      rwa [harith] at this
    simp only [if_neg h1]
    rw [ih (n + 1) (some (recordErr annotate chain stk (e n))) hatt2 hname2]
    have harith1 : n + 1 + k = n + (k + 1) := by omega
    have harith2 : n + 1 + (k + 1) = n + (k + 1 + 1) := by omega
    rw [harith1, harith2]

/-- A run of true budget checks whose attempts all fall through a falsy
precondition (raising nothing) leaves `currentException` untouched. -/
theorem retryLoop_noResult (annotate : Bool) (chain : List Locator) (stk : String)
    (attempt : Nat → AttemptResult α)
    (hatt : ∀ i, attempt i = .noResult) :
    ∀ (k n : Nat) (cur : Option Err),
      retryLoop annotate chain stk attempt (List.replicate k true) n cur =
        .timedOut cur (n + k) := by
  intro k
  induction k with
  | zero => intro n cur; simp [List.replicate, retryLoop]
  | succ k ih =>
    intro n cur
    rw [show List.replicate (k + 1) true = true :: List.replicate k true from rfl,
      retryLoop_cons_true, hatt n]
    rw [ih (n + 1) cur]
    have harith : n + 1 + k = n + (k + 1) := by omega
    rw [harith]

/-- One unfolding of `retryExpect` at a passing budget check. -/
theorem retryExpect_cons_true [DecidableEq T] (foo : Nat → T) (expected : T)
    (message : Option String) (concatenateMessages : Bool) (diffMsg : T → String)
    (rest : List Bool) (n : Nat) (exc : Option String) :
    retryExpect foo expected message concatenateMessages diffMsg (true :: rest) n exc =
      if foo n = expected then .success (n + 1)
      else retryExpect foo expected message concatenateMessages diffMsg rest (n + 1)
        (some (diffMsg (foo n))) := by
  simp [retryExpect]

/-- `retryExpect` succeeds on the first attempt whose result equals the
expected value, after exactly `j + 1` calls, whatever the earlier mismatching
results were and whatever budget remains. -/
theorem retryExpect_firstMatch [DecidableEq T] (foo : Nat → T) (expected : T)
    (message : Option String) (concatenateMessages : Bool) (diffMsg : T → String) :
    ∀ (j n : Nat) (exc : Option String) (rest : List Bool),
      (∀ i, i < j → foo (n + i) ≠ expected) →
      foo (n + j) = expected →
      retryExpect foo expected message concatenateMessages diffMsg
          (List.replicate j true ++ true :: rest) n exc =
        .success (n + j + 1) := by
  intro j
  induction j with
  | zero =>
    intro n exc rest _ hj
    simp only [Nat.add_zero] at hj
    rw [show List.replicate 0 true ++ true :: rest = true :: rest from rfl,
      retryExpect_cons_true, if_pos hj]
  | succ j ih =>
    intro n exc rest hlt hj
    have h0 : foo n ≠ expected := by
      have := hlt 0 (by omega)
      simpa using this
    rw [show List.replicate (j + 1) true ++ true :: rest =
        true :: (List.replicate j true ++ true :: rest) from rfl,
      retryExpect_cons_true, if_neg h0]
    have hlt2 : ∀ i, i < j → foo (n + 1 + i) ≠ expected := by
      intro i hi
      have := hlt (i + 1) (by omega)
      have harith : n + (i + 1) = n + 1 + i := by omega
      rwa [harith] at this
    have hj2 : foo (n + 1 + j) = expected := by
      have harith : n + (j + 1) = n + 1 + j := by omega
      rwa [harith] at hj
    rw [ih (n + 1) (some (diffMsg (foo n))) rest hlt2 hj2]
    have harith : n + 1 + j + 1 = n + (j + 1) + 1 := by omega
    rw [harith]

/-- `getElementGo` throws the annotated raw error of the first failing step:
if steps `n ≤ j < n + i` succeed and step `n + i` fails with `e`, the walk
over a list long enough to reach index `i` stops there. -/
theorem getElementGo_error_at (chain : List Locator) (steps : StepEnv) (e : Err) :
    ∀ (l : List Locator) (i n : Nat),
      i < l.length →
      (∀ j, n ≤ j → j < n + i → steps j = none) →
      steps (n + i) = some e →
      getElementGo chain steps n l = .error (annotateResolution chain (n + i) e) := by
  intro l
  induction l with
  | nil =>
    intro i n hi
    exact absurd hi (by simp)
  | cons x rest ih =>
    intro i n hi hnone hstep
    match i with
    | 0 =>
      simp only [Nat.add_zero] at hstep
      simp [getElementGo, hstep]
    | i + 1 =>
      have h0 : steps n = none := hnone n (Nat.le_refl n) (by omega)
      simp only [getElementGo, h0]
      have hnone2 : ∀ j, n + 1 ≤ j → j < n + 1 + i → steps j = none := by
        intro j hj1 hj2
        exact hnone j (by omega) (by omega)
      have hstep2 : steps (n + 1 + i) = some e := by
        have harith : n + (i + 1) = n + 1 + i := by omega
        rwa [harith] at hstep
      have := ih i (n + 1) (by simpa using Nat.lt_of_succ_lt_succ hi) hnone2 hstep2
      rw [this]
      have harith : n + 1 + i = n + (i + 1) := by omega
      rw [harith]

/-- `Element.getElement` throws the raw error of the first failing step,
annotated with the chain consumed so far and marked `getElementError`. -/
theorem getElement_error_at (el : Element) (steps : StepEnv) (i : Nat) (e : Err)
    (hi : i < el.chainedLocators.length)
    (hnone : ∀ j, j < i → steps j = none)
    (hstep : steps i = some e) :
    el.getElement steps = .error (annotateResolution el.chainedLocators i e) := by
  have := getElementGo_error_at el.chainedLocators steps e el.chainedLocators i 0 hi
    (by intro j hj1 hj2; exact hnone j (by omega)) (by simpa using hstep)
  simpa [Element.getElement] using this

/-- One unfolding of `waitForNotPresentLoop` at a passing budget check. -/
theorem waitForNotPresentLoop_cons_true (el : Element) (stk : String)
    (steps : Nat → StepEnv) (rest : List Bool) (n : Nat) (cur : Option Err) :
    waitForNotPresentLoop el stk steps (true :: rest) n cur =
      match el.getElement (steps n) with
      | .ok _ => waitForNotPresentLoop el stk steps rest (n + 1) cur
      | .error e =>
        if e.name = ErrName.invalidSelector then .fatal e (n + 1)
        else if e.name = ErrName.noSuchElement ∨ e.name = ErrName.staleElementReference then
          .success () (n + 1)
        else waitForNotPresentLoop el stk steps rest (n + 1) (some { e with stack := stk }) := by
  simp [waitForNotPresentLoop]

/-- In `waitForNotPresent`, attempts whose resolution fails with an
other-class error are retried: after `j` such attempts, a `j + 1`-st attempt
failing with not-found or stale returns successfully. -/
theorem waitForNotPresentLoop_success_at (el : Element) (stk : String)
    (steps : Nat → StepEnv) (e : Nat → Err) :
    ∀ (j n : Nat) (cur : Option Err) (rest : List Bool),
      (∀ i, i < j → el.getElement (steps (n + i)) = .error (e (n + i)) ∧
        (e (n + i)).name = ErrName.other) →
      el.getElement (steps (n + j)) = .error (e (n + j)) →
      ((e (n + j)).name = ErrName.noSuchElement ∨
        (e (n + j)).name = ErrName.staleElementReference) →
      waitForNotPresentLoop el stk steps (List.replicate j true ++ true :: rest) n cur =
        .success () (n + j + 1) := by
  intro j
  induction j with
  | zero =>
    intro n cur rest _ hres hcls
    simp only [Nat.add_zero] at hres hcls
    rw [show List.replicate 0 true ++ true :: rest = true :: rest from rfl,
      waitForNotPresentLoop_cons_true, hres]
    have hni : (e n).name ≠ ErrName.invalidSelector := by
      rcases hcls with h | h <;> simp [h]
    simp [hni, hcls]
  | succ j ih =>
    intro n cur rest hoth hres hcls
    have h0 := hoth 0 (by omega)
    simp only [Nat.add_zero] at h0
    rw [show List.replicate (j + 1) true ++ true :: rest =
        true :: (List.replicate j true ++ true :: rest) from rfl,
      waitForNotPresentLoop_cons_true, h0.1]
    have hni : (e n).name ≠ ErrName.invalidSelector := by simp [h0.2]
    have hns : ¬((e n).name = ErrName.noSuchElement ∨
        (e n).name = ErrName.staleElementReference) := by simp [h0.2]
    simp only [if_neg hni, if_neg hns]
    have hoth2 : ∀ i, i < j → el.getElement (steps (n + 1 + i)) = .error (e (n + 1 + i)) ∧
        (e (n + 1 + i)).name = ErrName.other := by
      intro i hi
      have := hoth (i + 1) (by omega)
      have harith : n + (i + 1) = n + 1 + i := by omega
      rwa [harith] at this
    have harith : n + (j + 1) = n + 1 + j := by omega
    rw [harith] at hres hcls
    rw [ih (n + 1) (some { e n with stack := stk }) rest hoth2 hres hcls]
    have harith2 : n + 1 + j + 1 = n + (j + 1) + 1 := by omega
    rw [harith2]

/-- In `waitForNotPresent`, if every attempt's resolution fails with an
other-class error, the exhausted budget throws the last recorded failure
(stack rewritten, message untouched). -/
theorem waitForNotPresentLoop_all_other (el : Element) (stk : String)
    (steps : Nat → StepEnv) (e : Nat → Err) :
    ∀ (k n : Nat) (cur : Option Err),
      (∀ i, i ≤ k → el.getElement (steps (n + i)) = .error (e (n + i)) ∧
        (e (n + i)).name = ErrName.other) →
      waitForNotPresentLoop el stk steps (List.replicate (k + 1) true) n cur =
        .timedOut (some { e (n + k) with stack := stk }) (n + (k + 1)) := by
  intro k
  induction k with
  | zero =>
    intro n cur hoth
    have h0 := hoth 0 (Nat.le_refl 0)
    simp only [Nat.add_zero] at h0
    rw [show List.replicate (0 + 1) true = true :: [] from rfl,
      waitForNotPresentLoop_cons_true, h0.1]
    have hni : (e n).name ≠ ErrName.invalidSelector := by simp [h0.2]
    have hns : ¬((e n).name = ErrName.noSuchElement ∨
        (e n).name = ErrName.staleElementReference) := by simp [h0.2]
    simp only [if_neg hni, if_neg hns]
    simp [waitForNotPresentLoop]
  | succ k ih =>
    intro n cur hoth
    have h0 := hoth 0 (Nat.zero_le _)
    simp only [Nat.add_zero] at h0
    rw [show List.replicate (k + 1 + 1) true = true :: List.replicate (k + 1) true from rfl,
      waitForNotPresentLoop_cons_true, h0.1]
    have hni : (e n).name ≠ ErrName.invalidSelector := by simp [h0.2]
    have hns : ¬((e n).name = ErrName.noSuchElement ∨
        (e n).name = ErrName.staleElementReference) := by simp [h0.2]
    simp only [if_neg hni, if_neg hns]
    have hoth2 : ∀ i, i ≤ k → el.getElement (steps (n + 1 + i)) = .error (e (n + 1 + i)) ∧
        (e (n + 1 + i)).name = ErrName.other := by
      intro i hi
      have := hoth (i + 1) (by omega)
      have harith : n + (i + 1) = n + 1 + i := by omega
      rwa [harith] at this
    rw [ih (n + 1) (some { e n with stack := stk }) hoth2]
    have harith1 : n + 1 + k = n + (k + 1) := by omega
    have harith2 : n + 1 + (k + 1) = n + (k + 1 + 1) := by omega
    rw [harith1, harith2]

/-- `jsSort` sorts the list under the character-list comparison. -/
theorem jsSort_sorted_data (l : List String) :
    (jsSort l).Sorted (fun a b => a.data ≤ b.data) :=
  List.sorted_insertionSort (fun a b => a.data ≤ b.data) l

/-- `jsSort` sorts the list under the string order. -/
theorem jsSort_sorted (l : List String) : (jsSort l).Sorted (fun a b => a ≤ b) :=
  (jsSort_sorted_data l).imp (fun h => String.le_iff_toList_le.mpr h)

/-- `jsSort` permutes the list. -/
theorem jsSort_perm (l : List String) : (jsSort l).Perm l := by
  unfold jsSort
  exact List.perm_insertionSort _ l

/-- `jsSort` depends only on the multiset of elements: permuted inputs sort
to the same list. -/
theorem jsSort_eq_of_perm (l1 l2 : List String) (h : l1.Perm l2) :
    jsSort l1 = jsSort l2 := by
  refine List.eq_of_perm_of_sorted ?_ (jsSort_sorted_data l1) (jsSort_sorted_data l2)
  exact ((jsSort_perm l1).trans h).trans (jsSort_perm l2).symm

/-! ## Claim theorems -/

/-- C1: for every operation wrapped in the retry-until-success loop (each of
`retryGetElement`, `click`, `clickSendKeys`, `clickTillAttributeEqual`,
`clickTillElementPresent`, `waitForVisible`, `retryIsDisplayed`,
`retryGetText`, `retryFindElements` is `runRetry` applied to its attempt
body), if every attempt within the timeout budget fails with a retryable
error, the call throws exactly the failure recorded on the last attempt
(`recordErr` of the last attempt's error), and only after the budget
predicate first reports the timeout elapsed: all `k + 1` within-budget checks
lead to attempts (the attempt count of the outcome is `k + 1`), and the throw
happens at the first false check. -/
theorem spec_c1 (annotate : Bool) (chain : List Locator) (stk : String)
    (attempt : Nat → AttemptResult α) (e : Nat → Err) (k : Nat)
    (hatt : ∀ i, i ≤ k → attempt i = .err (e i))
    (hname : ∀ i, i ≤ k → (e i).name ≠ ErrName.invalidSelector) :
    runRetry annotate chain stk attempt (List.replicate (k + 1) true) =
      .timedOut (some (recordErr annotate chain stk (e k))) (k + 1) := by
  have h := retryLoop_all_err annotate chain stk attempt e k 0 none
    (by intro i hi; simpa using hatt i hi)
    (by intro i hi; simpa using hname i hi)
  simpa [runRetry] using h

/-- Witness for C1: two budget checks pass, both attempts throw a
not-found error, and the call throws the recording of the second failure
after exactly two attempts. -/
theorem spec_c1_witness :
    (∀ i, i ≤ 1 → attemptsNoSuch i = .err (errsNoSuch i)) ∧
    (∀ i, i ≤ 1 → (errsNoSuch i).name ≠ ErrName.invalidSelector) ∧
    runRetry true [By.css "a"] "preserved" attemptsNoSuch (List.replicate 2 true) =
      .timedOut (some (recordErr true [By.css "a"] "preserved" (errsNoSuch 1))) 2 :=
  ⟨by decide, by decide,
    spec_c1 true [By.css "a"] "preserved" attemptsNoSuch errsNoSuch 1
      (by decide) (by decide)⟩

/-- C2: for every retry-until-success operation, an attempt failing with an
`InvalidSelectorError` is propagated immediately after exactly that one
attempt, whatever budget remains.  Stated for the shared loop `runRetry`
(which every listed operation instantiates) and, explicitly, for
`retryGetElement` and `click` with the invalid selector raised while
resolving the first chain locator (the error propagated is the one the
failing attempt threw, i.e. the resolution error annotated by `getElement`),
and for `retryFindElements` with the invalid selector raised by the
`findElements` action step. -/
theorem spec_c2 (annotate : Bool) (chain : List Locator) (stk : String)
    (attempt : Nat → AttemptResult Unit) (rest : List Bool) (e eRaw : Err)
    (el : Element) (steps : Nat → StepEnv) (cenv : Nat → StepEnv × ClickAction)
    (fenv : Nat → StepEnv × Option Err)
    (hname : e.name = ErrName.invalidSelector)
    (hnameRaw : eRaw.name = ErrName.invalidSelector)
    (hatt : attempt 0 = .err e)
    (hlen : 0 < el.chainedLocators.length)
    (hsteps : steps 0 0 = some eRaw)
    (hcsteps : (cenv 0).1 0 = some eRaw)
    (hfok : el.getElement (fenv 0).1 = .ok ())
    (hfact : (fenv 0).2 = some e) :
    runRetry annotate chain stk attempt (true :: rest) = .fatal e 1
    ∧ el.retryGetElement stk steps (true :: rest) =
        .fatal (annotateResolution el.chainedLocators 0 eRaw) 1
    ∧ el.click stk cenv (true :: rest) =
        .fatal (annotateResolution el.chainedLocators 0 eRaw) 1
    ∧ el.retryFindElements stk fenv (true :: rest) = .fatal e 1 := by
  have hA := getElement_error_at el (steps 0) 0 eRaw hlen (by intro j hj; omega) hsteps
  have hB := getElement_error_at el ((cenv 0).1) 0 eRaw hlen (by intro j hj; omega) hcsteps
  have hAname : (annotateResolution el.chainedLocators 0 eRaw).name = ErrName.invalidSelector := by
    simpa [annotateResolution] using hnameRaw
  refine ⟨?_, ?_, ?_, ?_⟩
  · rw [runRetry, retryLoop_cons_true, hatt]
    simp [hname]
  · simp [Element.retryGetElement, runRetry, retryLoop_cons_true, hA, hAname]
  · simp [Element.click, runRetry, retryLoop_cons_true, clickAttempt, hB, hAname]
  · simp [Element.retryFindElements, runRetry, retryLoop_cons_true, hfok, hfact, hname]

/-- Witness for C2: a one-locator handle whose first resolution step (or,
for `retryFindElements`, whose action step) raises an invalid-selector
error: every wrapper propagates it after exactly one attempt even though one
more budget check would have passed. -/
theorem spec_c2_witness :
    errInvalid.name = ErrName.invalidSelector ∧
    attemptsInvalid 0 = .err errInvalid ∧
    0 < elA.chainedLocators.length ∧
    stepsAllFailInvalid 0 0 = some errInvalid ∧
    (cenvResolveInvalid 0).1 0 = some errInvalid ∧
    elA.getElement (fenvActionInvalid 0).1 = .ok () ∧
    (fenvActionInvalid 0).2 = some errInvalid ∧
    (runRetry true [By.css "a"] "preserved" attemptsInvalid [true, true] =
        .fatal errInvalid 1
      ∧ elA.retryGetElement "preserved" stepsAllFailInvalid [true, true] =
          .fatal (annotateResolution elA.chainedLocators 0 errInvalid) 1
      ∧ elA.click "preserved" cenvResolveInvalid [true, true] =
          .fatal (annotateResolution elA.chainedLocators 0 errInvalid) 1
      ∧ elA.retryFindElements "preserved" fenvActionInvalid [true, true] =
          .fatal errInvalid 1) :=
  ⟨by decide, by decide, by decide, by decide, by decide, rfl, by decide,
    spec_c2 true [By.css "a"] "preserved" attemptsInvalid [true] errInvalid errInvalid
      elA stepsAllFailInvalid cenvResolveInvalid fenvActionInvalid
      (by decide) (by decide) (by decide) (by decide) (by decide) (by decide)
      rfl (by decide)⟩

/-- C3: `retryExpect` returns successfully on the first attempt whose result
deep-equals the expected value, after exactly `j + 1` calls to the operation
(no further calls), for every operation whose earlier `j` results mismatch —
the earlier mismatching results are never re-examined and do not affect the
success. -/
theorem spec_c3 {T : Type} [DecidableEq T] (foo : Nat → T) (expected : T)
    (message : Option String) (conc : Bool) (dm : T → String)
    (j : Nat) (rest : List Bool)
    (hmiss : ∀ i, i < j → foo i ≠ expected)
    (hhit : foo j = expected) :
    runRetryExpect foo expected message conc dm (List.replicate j true ++ true :: rest) =
      .success (j + 1) := by
  have h := retryExpect_firstMatch foo expected message conc dm j 0 none rest
    (by intro i hi; simpa using hmiss i hi) (by simpa using hhit)
  simpa [runRetryExpect] using h

/-- Witness for C3: the operation returns `0` then `1`; with expected value
`1`, `retryExpect` succeeds on the second call. -/
theorem spec_c3_witness :
    (∀ i, i < 1 → fooId i ≠ 1) ∧ fooId 1 = 1 ∧
    runRetryExpect fooId 1 none false (fun _ => "")
      (List.replicate 1 true ++ true :: []) = .success 2 :=
  ⟨by decide, by decide,
    spec_c3 fooId 1 none false (fun _ => "") 1 [] (by decide) (by decide)⟩

/-- C4 counterexample: the claim says a resolution failure of a class other
than not-found/stale is fatal, "propagated to the caller rather than
retried".  On a handle whose resolution always fails with an other-class
error, `waitForNotPresent` instead performs one attempt per passing budget
check — two attempts under two passing checks, three under three — and
throws only on budget exhaustion (a `timedOut` outcome carrying the last
recorded failure), not by propagating the first failure after one attempt. -/
theorem spec_c4_counterexample :
    elA.waitForNotPresent "preserved" stepsAllFailOther [true, true] =
      .timedOut (some { errsAnnOther 0 with stack := "preserved" }) 2
    ∧ elA.waitForNotPresent "preserved" stepsAllFailOther [true, true, true] =
      .timedOut (some { errsAnnOther 0 with stack := "preserved" }) 3 := by
  decide

/-- C4 (amended): `waitForNotPresent` returns successfully as soon as an
attempt's resolution fails with not-found or stale; an invalid-selector
resolution failure alone is propagated immediately; a resolution failure of
any other class is recorded (stack rewritten) and retried, and the last such
failure is thrown only once the timeout budget elapses. -/
theorem spec_c4 (el : Element) (stk : String)
    (steps1 steps2 steps3 : Nat → StepEnv) (e1 e2 : Nat → Err) (eI : Err)
    (j k : Nat) (rest1 rest3 : List Bool)
    (h1a : ∀ i, i < j → el.getElement (steps1 i) = .error (e1 i) ∧
      (e1 i).name = ErrName.other)
    (h1b : el.getElement (steps1 j) = .error (e1 j))
    (h1c : (e1 j).name = ErrName.noSuchElement ∨
      (e1 j).name = ErrName.staleElementReference)
    (h2 : ∀ i, i ≤ k → el.getElement (steps2 i) = .error (e2 i) ∧
      (e2 i).name = ErrName.other)
    (h3a : el.getElement (steps3 0) = .error eI)
    (h3b : eI.name = ErrName.invalidSelector) :
    el.waitForNotPresent stk steps1 (List.replicate j true ++ true :: rest1) =
      .success () (j + 1)
    ∧ el.waitForNotPresent stk steps2 (List.replicate (k + 1) true) =
      .timedOut (some { e2 k with stack := stk }) (k + 1)
    ∧ el.waitForNotPresent stk steps3 (true :: rest3) = .fatal eI 1 := by
  refine ⟨?_, ?_, ?_⟩
  · have h := waitForNotPresentLoop_success_at el stk steps1 e1 j 0 none rest1
      (by intro i hi; simpa using h1a i hi) (by simpa using h1b) (by simpa using h1c)
    simpa [Element.waitForNotPresent] using h
  · have h := waitForNotPresentLoop_all_other el stk steps2 e2 k 0 none
      (by intro i hi; simpa using h2 i hi)
    simpa [Element.waitForNotPresent] using h
  · rw [Element.waitForNotPresent, waitForNotPresentLoop_cons_true, h3a]
    simp [h3b]

/-- Witness for C4 (amended): an other-class failure on attempt 0 followed by
a not-found failure on attempt 1 ends in success after two attempts; two
other-class failures exhaust a two-check budget and throw the second recorded
failure; an invalid-selector failure is propagated after one attempt. -/
theorem spec_c4_witness :
    (∀ i, i < 1 → elA.getElement (stepsOtherThenNoSuch i) =
        .error (errsOtherThenNoSuch i) ∧ (errsOtherThenNoSuch i).name = ErrName.other) ∧
    elA.getElement (stepsOtherThenNoSuch 1) = .error (errsOtherThenNoSuch 1) ∧
    ((errsOtherThenNoSuch 1).name = ErrName.noSuchElement ∨
      (errsOtherThenNoSuch 1).name = ErrName.staleElementReference) ∧
    (∀ i, i ≤ 1 → elA.getElement (stepsAllFailOther i) = .error (errsAnnOther i) ∧
      (errsAnnOther i).name = ErrName.other) ∧
    elA.getElement (stepsAllFailInvalid 0) =
      .error (annotateResolution elA.chainedLocators 0 errInvalid) ∧
    (annotateResolution elA.chainedLocators 0 errInvalid).name = ErrName.invalidSelector ∧
    (elA.waitForNotPresent "preserved" stepsOtherThenNoSuch
        (List.replicate 1 true ++ true :: []) = .success () 2
      ∧ elA.waitForNotPresent "preserved" stepsAllFailOther (List.replicate 2 true) =
        .timedOut (some { errsAnnOther 1 with stack := "preserved" }) 2
      ∧ elA.waitForNotPresent "preserved" stepsAllFailInvalid (true :: []) =
        .fatal (annotateResolution elA.chainedLocators 0 errInvalid) 1) :=
  ⟨by decide, by decide, by decide, by decide, by decide, by decide,
    spec_c4 elA "preserved" stepsOtherThenNoSuch stepsAllFailOther stepsAllFailInvalid
      errsOtherThenNoSuch errsAnnOther (annotateResolution elA.chainedLocators 0 errInvalid)
      1 1 [] [] (by decide) (by decide) (by decide) (by decide) (by decide) (by decide)⟩

/-- C5 counterexample: the claim says every error raised during the action
step of any Element operation, including `retryFindElements`, escapes with
the chain appended to its message exactly once.  But `retryFindElements` does
not annotate action-step errors: when resolution succeeds and the
`WebElement#findElements` action throws a stale-reference error, the error
thrown on budget exhaustion still carries the raw message (the chain was
appended zero times, although the chain's rendering is non-empty). -/
theorem spec_c5_counterexample :
    elA.retryFindElements "preserved" fenvActionStale [true] =
      .timedOut (some { errStale with stack := "preserved" }) 1
    ∧ errStale.message = "stale element reference"
    ∧ chainSuffix elA.chainedLocators ≠ "" := by
  decide

/-- C5 (amended): resolution errors escaping any retried operation carry the
chain consumed so far appended exactly once (appended by `getElement`, which
marks them `getElementError` so the annotating wrappers do not append again);
action-step errors escaping the annotating wrappers (`click`,
`clickSendKeys`, `clickTillAttributeEqual`, `clickTillElementPresent`,
`waitForVisible`, `retryIsDisplayed`, `retryGetText`) get the full chain
appended exactly once; but `retryFindElements` propagates action-step errors
with no chain appended at all. -/
theorem spec_c5 (el : Element) (stk : String) (i : Nat) (e : Err)
    (cenv1 cenv2 : Nat → StepEnv × ClickAction) (fenv1 fenv2 : Nat → StepEnv × Option Err)
    (hraw : e.getElementError = false) (hname : e.name ≠ ErrName.invalidSelector)
    (hi : i < el.chainedLocators.length)
    (hc1a : ∀ j, j < i → (cenv1 0).1 j = none) (hc1b : (cenv1 0).1 i = some e)
    (hc2a : el.getElement (cenv2 0).1 = .ok ())
    (hc2b : (cenv2 0).2 = ClickAction.clickThrows e)
    (hf1a : ∀ j, j < i → (fenv1 0).1 j = none) (hf1b : (fenv1 0).1 i = some e)
    (hf2a : el.getElement (fenv2 0).1 = .ok ()) (hf2b : (fenv2 0).2 = some e) :
    el.click stk cenv1 [true] =
      .timedOut (some { e with
        message := e.message ++ chainSuffix (el.chainedLocators.take (i + 1)),
        getElementError := true, stack := stk }) 1
    ∧ el.click stk cenv2 [true] =
      .timedOut (some { e with
        message := e.message ++ chainSuffix el.chainedLocators, stack := stk }) 1
    ∧ el.retryFindElements stk fenv1 [true] =
      .timedOut (some { e with
        message := e.message ++ chainSuffix (el.chainedLocators.take (i + 1)),
        getElementError := true, stack := stk }) 1
    ∧ el.retryFindElements stk fenv2 [true] =
      .timedOut (some { e with stack := stk }) 1 := by
  have hA := getElement_error_at el ((cenv1 0).1) i e hi hc1a hc1b
  have hB := getElement_error_at el ((fenv1 0).1) i e hi hf1a hf1b
  have hAname : (annotateResolution el.chainedLocators i e).name ≠ ErrName.invalidSelector := by
    simpa [annotateResolution] using hname
  refine ⟨?_, ?_, ?_, ?_⟩
  · simp [Element.click, runRetry, retryLoop_cons_true, clickAttempt, hA, hAname, hname,
      recordErr, annotateResolution, retryLoop]
  · simp [Element.click, runRetry, retryLoop_cons_true, clickAttempt, hc2a, hc2b, hname,
      recordErr, hraw, retryLoop]
  · simp [Element.retryFindElements, runRetry, retryLoop_cons_true, hB, hAname, hname,
      recordErr, annotateResolution, retryLoop]
  · simp [Element.retryFindElements, runRetry, retryLoop_cons_true, hf2a, hf2b, hname,
      recordErr, hraw, retryLoop]

/-- Witness for C5 (amended): on the one-locator handle, a resolution failure
escaping `click` or `retryFindElements` carries the chain once; an action
failure escaping `click` gets the chain appended once; an action failure
escaping `retryFindElements` is thrown with its message untouched. -/
theorem spec_c5_witness :
    errOther.getElementError = false ∧
    errOther.name ≠ ErrName.invalidSelector ∧
    0 < elA.chainedLocators.length ∧
    (cenvResolveFail 0).1 0 = some errOther ∧
    elA.getElement (cenvClickThrows 0).1 = .ok () ∧
    (cenvClickThrows 0).2 = ClickAction.clickThrows errOther ∧
    (fenvResolveFail 0).1 0 = some errOther ∧
    elA.getElement (fenvActionOther 0).1 = .ok () ∧
    (fenvActionOther 0).2 = some errOther ∧
    (elA.click "preserved" cenvResolveFail [true] =
        .timedOut (some { errOther with
          message := errOther.message ++ chainSuffix (elA.chainedLocators.take 1),
          getElementError := true, stack := "preserved" }) 1
      ∧ elA.click "preserved" cenvClickThrows [true] =
        .timedOut (some { errOther with
          message := errOther.message ++ chainSuffix elA.chainedLocators,
          stack := "preserved" }) 1
      ∧ elA.retryFindElements "preserved" fenvResolveFail [true] =
        .timedOut (some { errOther with
          message := errOther.message ++ chainSuffix (elA.chainedLocators.take 1),
          getElementError := true, stack := "preserved" }) 1
      ∧ elA.retryFindElements "preserved" fenvActionOther [true] =
        .timedOut (some { errOther with stack := "preserved" }) 1) :=
  ⟨by decide, by decide, by decide, by decide, rfl, by decide, by decide, rfl, by decide,
    spec_c5 elA "preserved" 0 errOther cenvResolveFail cenvClickThrows
      fenvResolveFail fenvActionOther (by decide) (by decide) (by decide)
      (by decide) (by decide) rfl (by decide) (by decide) (by decide) rfl (by decide)⟩

/-- C6 (code evaluated at the failing input): the `xx` factory — the
document-scoped collection factory taking an XPath expression — constructs
its handle as `new ElementAll(By.css(xpath))`: the resulting locator's
strategy is CSS, not XPath, making `xx` behave exactly like the CSS factory
`$$` applied to the XPath text. -/
theorem spec_c6_bug :
    xx "//div" = { ownLocator := By.css "//div" }
    ∧ (xx "//div").ownLocator.strategy = Strategy.css
    ∧ (xx "//div").ownLocator.strategy ≠ Strategy.xpath
    ∧ xx "//div" = dollarAll "//div" := by
  decide

/-- C7: chain derivation is non-mutating and compositional: `$`, `xpath` and
`element` build the child's chain as the parent's chain (a copied array)
plus the new locator — the parent's chain is an input only, never written —
and `.$(a).$(b)` from the document root yields the very element produced by
constructing the two-locator array `[By.css a, By.css b]` directly. -/
theorem spec_c7 (p : Element) (a b : String) (l : Locator) :
    (p.childCss a).chainedLocators = p.chainedLocators ++ [By.css a]
    ∧ (p.xpathChild a).chainedLocators = p.chainedLocators ++ [By.xpath a]
    ∧ p.childElement (.inl l) = .ok (Element.construct (.inr (p.chainedLocators ++ [l])))
    ∧ ((p.childCss a).childCss b).chainedLocators =
        p.chainedLocators ++ [By.css a, By.css b]
    ∧ (dollar a).childCss b = Element.construct (.inr [By.css a, By.css b]) := by
  refine ⟨rfl, rfl, rfl, ?_, rfl⟩
  simp [Element.childCss, Element.construct]

/-- C8: `getSortedElementsTexts` returns the matched texts lexicographically
sorted and independently of discovery order (permuted discovery orders give
the same output, a sorted permutation of the texts), and
`expectSortedListToEqual` succeeds on its first attempt for every expected
list that is a reordering of the actual texts. -/
theorem spec_c8 (texts1 texts2 expected : List String) (rest : List Bool)
    (msg : Option String) (dm : List String → String)
    (hdisc : texts1.Perm texts2) (hperm : expected.Perm texts1) :
    ChainedElementAll.getSortedElementsTexts texts1 =
      ChainedElementAll.getSortedElementsTexts texts2
    ∧ (ChainedElementAll.getSortedElementsTexts texts1).Sorted (fun a b => a ≤ b)
    ∧ (ChainedElementAll.getSortedElementsTexts texts1).Perm texts1
    ∧ (ChainedElementAll.expectSortedListToEqual texts1 expected msg dm (true :: rest)).1 =
        .success 1 := by
  have hs : jsSort expected = jsSort texts1 := jsSort_eq_of_perm expected texts1 hperm
  refine ⟨jsSort_eq_of_perm texts1 texts2 hdisc, jsSort_sorted texts1,
    jsSort_perm texts1, ?_⟩
  simp [ChainedElementAll.expectSortedListToEqual, runRetryExpect,
    ChainedElementAll.getSortedElementsTexts, retryExpect_cons_true, hs]

/-- Witness for C8: actual texts discovered as `["a","b"]` or `["b","a"]`
sort identically, and the expected list `["b","a"]` (a reordering) succeeds
on the first attempt. -/
theorem spec_c8_witness :
    (["a", "b"] : List String).Perm ["b", "a"] ∧
    (["b", "a"] : List String).Perm ["a", "b"] ∧
    (ChainedElementAll.getSortedElementsTexts ["a", "b"] =
        ChainedElementAll.getSortedElementsTexts ["b", "a"]
      ∧ (ChainedElementAll.getSortedElementsTexts ["a", "b"]).Sorted (fun a b => a ≤ b)
      ∧ (ChainedElementAll.getSortedElementsTexts ["a", "b"]).Perm ["a", "b"]
      ∧ (ChainedElementAll.expectSortedListToEqual ["a", "b"] ["b", "a"] none
          (fun _ => "") (true :: [])).1 = .success 1) :=
  ⟨by decide, by decide,
    spec_c8 ["a", "b"] ["b", "a"] ["b", "a"] [] none (fun _ => "")
      (by decide) (by decide)⟩

/-- C9: with the budget predicate false before the first check (for a
negative `timeoutCondition` budget the predicate is false at every
non-earlier time), every retry loop performs zero attempts and throws
`currentException` still holding the value `undefined` (`timedOut none 0`);
`retryExpect` without a caller-supplied message then dereferences
`exception.message` with `exception` undefined, raising a `TypeError`
instead of an `AssertionError`; and `click` on an element that always
resolves but is never enabled records no failure either, throwing
`undefined` after the whole budget is spent. -/
theorem spec_c9 {T : Type} [DecidableEq T] (annotate : Bool) (chain : List Locator)
    (stk : String) (attempt : Nat → AttemptResult Unit) (rest : List Bool)
    (el : Element) (steps : Nat → StepEnv) (cenv : Nat → StepEnv × ClickAction)
    (k : Nat) (timeoutMs dt now : Int)
    (foo : Nat → T) (expected : T) (conc : Bool) (dm : T → String)
    (hneg : timeoutMs < 0) (hnow : dt ≤ now)
    (hcenv : ∀ n, el.getElement ((cenv n).1) = .ok () ∧
      (cenv n).2 = ClickAction.notEnabled) :
    timeoutCondition timeoutMs dt now = false
    ∧ runRetry annotate chain stk attempt [] = .timedOut none 0
    ∧ runRetry annotate chain stk attempt (false :: rest) = .timedOut none 0
    ∧ el.retryGetElement stk steps [] = .timedOut none 0
    ∧ runRetryExpect foo expected none conc dm [] = .typeError 0
    ∧ el.click stk cenv (List.replicate k true) = .timedOut none k := by
  refine ⟨?_, rfl, ?_, rfl, ?_, ?_⟩
  · simp only [timeoutCondition, decide_eq_false_iff_not, not_le]
    omega
  · simp [runRetry, retryLoop]
  · simp [runRetryExpect, retryExpect, expectThrow, jsTruthy]
  · have hatt : ∀ n, clickAttempt el ((cenv n).1) ((cenv n).2) = .noResult := by
      intro n
      have h := hcenv n
      simp [clickAttempt, h.1, h.2]
    have h := retryLoop_noResult true el.chainedLocators stk
      (fun n => clickAttempt el ((cenv n).1) ((cenv n).2)) hatt k 0 none
    simpa [Element.click, runRetry] using h

/-- Witness for C9: budget `-1` ms is already elapsed at creation time; the
loops with an empty or immediately-false budget throw `undefined` with zero
attempts; `retryExpect` with no message raises the `TypeError`; a two-check
budget over a never-enabled element ends in `throw undefined` after two
attempts. -/
theorem spec_c9_witness :
    ((-1 : Int) < 0) ∧ ((0 : Int) ≤ 0) ∧
    (∀ n, elA.getElement ((cenvNotEnabled n).1) = .ok () ∧
      (cenvNotEnabled n).2 = ClickAction.notEnabled) ∧
    (timeoutCondition (-1) 0 0 = false
      ∧ runRetry true [] "preserved" attemptsNoSuch [] = .timedOut none 0
      ∧ runRetry true [] "preserved" attemptsNoSuch (false :: [true]) = .timedOut none 0
      ∧ elA.retryGetElement "preserved" stepsAllFailOther [] = .timedOut none 0
      ∧ runRetryExpect fooId 0 none false (fun _ => "") [] = .typeError 0
      ∧ elA.click "preserved" cenvNotEnabled (List.replicate 2 true) = .timedOut none 2) :=
  ⟨by decide, by decide, fun _ => ⟨rfl, rfl⟩,
    spec_c9 true [] "preserved" attemptsNoSuch [true] elA stepsAllFailOther cenvNotEnabled
      2 (-1) 0 0 fooId 0 false (fun _ => "") (by decide) (by decide)
      (fun _ => ⟨rfl, rfl⟩)⟩

/-- C10: `expectSortedListToEqual` and `expectSortedListToBe` call
`list.sort()` on the caller-supplied expected array, sorting it in place:
after the call the caller's array holds the lexicographically sorted
contents (so an unsorted argument such as `["b","a"]` is permanently
reordered, not left unchanged). -/
theorem spec_c10 (actualTexts list : List String) (msg : Option String)
    (dm : List String → String) (budget : List Bool) :
    (ChainedElementAll.expectSortedListToEqual actualTexts list msg dm budget).2 =
      jsSort list
    ∧ (ElementAll.expectSortedListToBe actualTexts list msg dm budget).2 = jsSort list
    ∧ (jsSort list).Sorted (fun a b => a ≤ b)
    ∧ (ChainedElementAll.expectSortedListToEqual actualTexts ["b", "a"] msg dm budget).2 =
        ["a", "b"]
    ∧ jsSort ["b", "a"] ≠ ["b", "a"] := by
  refine ⟨rfl, rfl, jsSort_sorted list, ?_, by decide⟩
  show jsSort ["b", "a"] = ["a", "b"]
  decide
